import Mathlib

/-!
Verification of the content-curation and citation pipeline of the
community-info-collector backend.

The Python services are shallowly embedded as executable Lean functions:

* `app/services/llm_service.py` — footnote extraction
  (`_extract_footnote_mapping`) and marker rewriting
  (`_convert_refs_to_footnotes`), including a faithful model of the
  regex `\[ref:([^\]]+)\]` (find-all and substitution semantics of
  `re.findall` / `re.sub`).
* `app/services/relevance_filtering_service.py` — batch relevance
  scoring, threshold filtering and the minimum-quality backfill.
* `app/services/topic_clustering_service.py` — topic extraction,
  batch assignment parsing, cluster assignment and optimization.
* `app/services/orchestrator_service.py` — `_remove_duplicates`.

Modelling conventions: Python dicts become structures whose optional keys
are `Option` fields (`dict.get` defaults are applied at use sites exactly
as in the source); Python floats that carry relevance scores are exact
decimal halves (5.0, 5.5, 8.5, …) and are modelled as rationals, on which
the source's comparisons coincide with float comparisons; LLM transports
are oracles: a call's outcome (raised exception / returned payload after
JSON decoding) is passed in as data, since the pipeline treats the raw
response only through its parsers.  Recursions over strings and chunked
lists use a fuel argument equal to the input length, which each step
strictly consumes, so the fuelled functions agree with the Python loops.
-/

namespace Pipeline

/-! ## Stable sorting (Python `list.sort(key=..., reverse=True)` / `sorted`)

Python sorts are stable.  A stable sort is uniquely determined by the key
order plus stability, so the insertion sorts below compute the same lists
as CPython's Timsort with the given keys. -/

/-- Insert `x` into `l` (sorted by `key` descending), before the first
element whose key is ≤ `key x` — stable descending insertion. -/
def insertDescBy {α β : Type} [LinearOrder β] (key : α → β) (x : α) : List α → List α
  | [] => [x]
  | y :: ys => if key y ≤ key x then x :: y :: ys else y :: insertDescBy key x ys

/-- Stable sort by `key`, descending: Python `sort(key=key, reverse=True)`. -/
def sortDescBy {α β : Type} [LinearOrder β] (key : α → β) : List α → List α
  | [] => []
  | x :: xs => insertDescBy key x (sortDescBy key xs)

/-- Insert `x` into `l` (sorted by `key` ascending), before the first
element whose key is ≥ `key x` — stable ascending insertion. -/
def insertAscBy {α β : Type} [LinearOrder β] (key : α → β) (x : α) : List α → List α
  | [] => [x]
  | y :: ys => if key x ≤ key y then x :: y :: ys else y :: insertAscBy key x ys

/-- Stable sort by `key`, ascending: Python `sort(key=key)`. -/
def sortAscBy {α β : Type} [LinearOrder β] (key : α → β) : List α → List α
  | [] => []
  | x :: xs => insertAscBy key x (sortAscBy key xs)

/-! ## Batching (Python slicing `[lst[i:i+k] for i in range(0, len(lst), k)]`) -/

/-- Fuelled chunking; every step consumes one fuel and at least one list
element, so fuel `l.length` always suffices. -/
def chunksFuel {α : Type} : Nat → Nat → List α → List (List α)
  | 0, _, _ => []
  | _ + 1, _, [] => []
  | fuel + 1, k, x :: xs => (x :: xs.take (k - 1)) :: chunksFuel fuel k (xs.drop (k - 1))

/-- Split `l` into consecutive chunks of size `k` (last chunk may be
shorter), as the Python slice comprehension does for `k ≥ 1`. -/
def chunks {α : Type} (k : Nat) (l : List α) : List (List α) :=
  chunksFuel l.length k l

/-! ## Citation mapper (`llm_service.py`)

`_format_posts_for_prompt` labels the i-th prompt item (1-based) with
`POST_i` / `COMMENT_i` and returns `index_mapping : {i: item}`;
`_extract_footnote_mapping` scans the generated report for
`[ref:<ID>]` markers, numbers the distinct IDs in first-occurrence
order, and resolves each against the `POST_i`/`COMMENT_i` keys built
from `index_mapping`; `_convert_refs_to_footnotes` rewrites markers
through a dict keyed by each footnote's `post_id` field (the item's
platform id `post.get('id','')`, not the `POST_i` marker key). -/

/-- An entry of `index_mapping` / `posts`: the dict fields the citation
code reads.  `created_utc` is carried as the numeric timestamp the
pipeline items hold (the ISO-string fallback parse of
`_extract_footnote_mapping` is collapsed to the already-numeric case). -/
structure CItem where
  id : Option String
  type : Option String
  url : Option String
  title : Option String
  score : Int
  numComments : Int
  createdUtc : Int
  subreddit : Option String
  author : Option String
deriving DecidableEq, Repr

/-- A footnote dict as built by `_extract_footnote_mapping`. -/
structure FootnoteE where
  footnoteNumber : Nat
  postId : String
  url : String
  title : String
  score : Int
  comments : Int
  createdUtc : Int
  subreddit : String
  author : String
  positionInReport : Nat
deriving DecidableEq, Repr

/-- Split a character list at the first `']'`: the regex class `[^\]]+`
stops exactly there.  Returns `(before, after)` without the bracket. -/
def splitAtRBracket : List Char → Option (List Char × List Char)
  | [] => none
  | c :: cs =>
    if c = ']' then some ([], cs)
    else (splitAtRBracket cs).map (fun p => (c :: p.1, p.2))

/-- Try to match the regex `\[ref:([^\]]+)\]` at the head of the list;
on success return the captured group and the remaining characters. -/
def matchRef : List Char → Option (String × List Char)
  | '[' :: 'r' :: 'e' :: 'f' :: ':' :: rest =>
    match splitAtRBracket rest with
    | some (cap, rest') => if cap = [] then none else some (String.mk cap, rest')
    | none => none
  | _ => none

/-- Fuelled left-to-right scan for all non-overlapping matches of
`\[ref:([^\]]+)\]` — the semantics of `re.findall` with one group. -/
def findRefsAux : Nat → List Char → List String
  | 0, _ => []
  | _ + 1, [] => []
  | fuel + 1, c :: cs =>
    match matchRef (c :: cs) with
    | some (id, rest) => id :: findRefsAux fuel rest
    | none => findRefsAux fuel cs

/-- `re.findall(r'\[ref:([^\]]+)\]', s)`. -/
def findRefs (s : String) : List String :=
  findRefsAux s.data.length s.data

/-- Fuelled left-to-right substitution of every match of
`\[ref:([^\]]+)\]` — the semantics of `re.sub` with the replacement
function `replace_ref`: a captured id found in the mapping becomes
`[n]`, otherwise the whole match is kept verbatim. -/
def substRefsAux (m : String → Option Nat) : Nat → List Char → List Char
  | 0, cs => cs
  | _ + 1, [] => []
  | fuel + 1, c :: cs =>
    match matchRef (c :: cs) with
    | some (id, rest) =>
      (match m id with
       | some n => '[' :: (toString n).data ++ [']']
       | none => '[' :: 'r' :: 'e' :: 'f' :: ':' :: id.data ++ [']']) ++
        substRefsAux m fuel rest
    | none => c :: substRefsAux m fuel cs

/-- First-occurrence deduplication: the loop building `unique_refs`
(`if ref not in ref_to_footnote`). -/
def dedupFirstAux (seen : List String) : List String → List String
  | [] => []
  | r :: rs =>
    if seen.contains r then dedupFirstAux seen rs
    else r :: dedupFirstAux (r :: seen) rs

def dedupFirst (l : List String) : List String := dedupFirstAux [] l

/-- The key under which an `index_mapping` entry is filed in
`posts_by_ref_id`: `POST_{idx}` for posts, `COMMENT_{idx}` otherwise. -/
def refKey (idx : Nat) (it : CItem) : String :=
  (if it.type = some "post" then "POST_" else "COMMENT_") ++ toString idx

/-- `posts_by_ref_id` built from `index_mapping` (the branch taken by
`generate_report`, which always passes the mapping). -/
def postsByRefId (indexMapping : List (Nat × CItem)) : List (String × CItem) :=
  indexMapping.map fun p => (refKey p.1 p.2, p.2)

/-- Python-dict lookup on an insertion-ordered association list: the
last insertion of a key wins. -/
def dictLookup {α : Type} (assoc : List (String × α)) (k : String) : Option α :=
  (assoc.reverse.find? (fun p => p.1 == k)).map (·.2)

/-- One footnote dict, with the `dict.get` defaults of the source. -/
def mkFootnote (n : Nat) (it : CItem) : FootnoteE :=
  { footnoteNumber := n
    postId := it.id.getD ""
    url := it.url.getD ""
    title := it.title.getD ""
    score := it.score
    comments := it.numComments
    createdUtc := it.createdUtc
    subreddit := it.subreddit.getD ""
    author := it.author.getD ""
    positionInReport := n }

/-- The loop `for post_id, footnote_number in ref_to_footnote.items()`:
the distinct ids carry numbers `n, n+1, …` in first-occurrence order
(`ref_to_footnote[ref] = len(unique_refs)`), and only resolvable ids
produce a footnote dict (unresolvable ones are logged and skipped). -/
def numberFootnotes (dict : List (String × CItem)) : Nat → List String → List FootnoteE
  | _, [] => []
  | n, r :: rs =>
    match dictLookup dict r with
    | some it => mkFootnote n it :: numberFootnotes dict (n + 1) rs
    | none => numberFootnotes dict (n + 1) rs

/-- `_extract_footnote_mapping(report, posts, index_mapping)`: find all
markers, number distinct ids in first-occurrence order starting at 1,
resolve each against `posts_by_ref_id`, keep resolvable ones, sort by
footnote number (Python's final stable `sort`). -/
def extractFootnoteMapping (report : String) (indexMapping : List (Nat × CItem)) :
    List FootnoteE :=
  let refs := findRefs report
  if refs = [] then []
  else
    sortAscBy (fun f => f.footnoteNumber)
      (numberFootnotes (postsByRefId indexMapping) 1 (dedupFirst refs))

/-- The dict comprehension `{item['post_id']: item['footnote_number']}`. -/
def postIdToFootnote (mapping : List FootnoteE) (pid : String) : Option Nat :=
  dictLookup (mapping.map fun f => (f.postId, f.footnoteNumber)) pid

/-- One line of the appended reference list. -/
def refLine (f : FootnoteE) : String :=
  "[" ++ toString f.footnoteNumber ++ "] " ++ f.title ++ " - r/" ++ f.subreddit ++
    " (점수: " ++ toString f.score ++ ", 댓글: " ++ toString f.comments ++ ")\n"

/-- `_convert_refs_to_footnotes(report, footnote_mapping)`. -/
def convertRefsToFootnotes (report : String) (mapping : List FootnoteE) : String :=
  let substituted := String.mk (substRefsAux (postIdToFootnote mapping) report.data.length report.data)
  if mapping = [] then substituted
  else substituted ++ "\n\n## 참조 목록\n\n" ++ String.join (mapping.map refLine)

/-- The citation-mapping step of `generate_report`: extract the footnote
mapping from the raw report, then rewrite the markers. -/
def mapCitations (report : String) (indexMapping : List (Nat × CItem)) :
    String × List FootnoteE :=
  let fm := extractFootnoteMapping report indexMapping
  (convertRefsToFootnotes report fm, fm)

/-! ## Relevance filter (`relevance_filtering_service.py`)

Constants of the service: `RELEVANCE_THRESHOLD = 6.0`,
`MIN_HIGH_QUALITY_POSTS = 10`, `MAX_CONTENT_ITEMS = 50`, batch size 10. -/

/-- A content dict as the filter and clusterer read it.  Optional keys
are `Option` fields; `score` is always read through `get('score', 0)`,
so a missing key is indistinguishable from 0 and the field is total. -/
structure RItem where
  id : Option String
  type : Option String
  title : Option String
  score : Int
  relevanceScore : Option ℚ
  relevanceReason : Option String
deriving DecidableEq, Repr

/-- One element of the decoded judge response array.
`entry` models a dict that passed `isinstance(item, dict)` and has both
required keys with int/float-convertible values (Python `bool` counts as
`int`); `invalid` models an element skipped by that check.  An element
whose values make `int(...)`/`float(...)` raise aborts the whole parse
and is modelled as the `none` response. -/
inductive RawScore where
  | entry (contentIndex : Int) (relevanceScore : ℚ) (reason : Option String)
  | invalid
deriving DecidableEq, Repr

/-- A validated score record produced by `_parse_relevance_scores`. -/
structure ScoreEntry where
  contentIndex : Int
  score : ℚ
  reason : String
deriving DecidableEq, Repr

/-- `_parse_relevance_scores`: `none` is any unparsable response (JSON
decode failure, non-list payload, or a conversion error inside the
loop) — the function then returns `[]`.  Scores are clamped to
`[0, 10]`; a missing reason defaults to `'이유 없음'`. -/
def parseRelevanceScores : Option (List RawScore) → List ScoreEntry
  | none => []
  | some l =>
    l.filterMap fun r =>
      match r with
      | .entry ci rs rn => some ⟨ci, max 0 (min 10 rs), rn.getD "이유 없음"⟩
      | .invalid => none

/-- Outcome of the judge LLM call inside `_score_content_relevance`:
the call raised (`failure`) or returned text whose decoded form is
`output` (with `none` for unparsable text). -/
inductive JudgeCall where
  | failure
  | output (raw : Option (List RawScore))
deriving DecidableEq, Repr

/-- `_score_content_relevance(batch, …)`: on a raised judge call every
item gets the neutral 5.0 with reason `'LLM 평가 실패'`; otherwise each
item takes the first parsed entry whose `content_index` equals its
1-based first-equal position (`content_batch.index(item) + 1`), and
defaults to 5.0 with `'점수 계산 실패'` when no entry matches.  Items
are copied (`item.copy()`) with the two relevance keys set. -/
def scoreContentRelevance (batch : List RItem) (call : JudgeCall) : List RItem :=
  match call with
  | .failure =>
    batch.map fun it =>
      { it with relevanceScore := some 5, relevanceReason := some "LLM 평가 실패" }
  | .output raw =>
    let scoresData := parseRelevanceScores raw
    batch.map fun it =>
      let contentIdx : Int := (batch.indexOf it : Nat) + 1
      match scoresData.find? (fun se => se.contentIndex == contentIdx) with
      | some se =>
        { it with relevanceScore := some se.score, relevanceReason := some se.reason }
      | none =>
        { it with relevanceScore := some 5, relevanceReason := some "점수 계산 실패" }

/-- Outcome of one batch iteration of `filter_relevant_content`: either
`_score_content_relevance` completed with the judge-call outcome it
saw, or the batch raised before/around it (the `except` branch, which
keeps the raw batch: `all_filtered_content.extend(batch)`). -/
inductive BatchOutcome where
  | judged (call : JudgeCall)
  | exception
deriving DecidableEq, Repr

/-- `_ensure_minimum_quality_content(filtered_content, original_content)`:
below the floor of 10, backfill from the original items not already
included (by `get('id')`), highest raw `score` first; a backfilled item
without a `relevance_score` key gets the synthetic score 5.5
(`임계값보다 약간 높은 기본 점수`) and the audit reason. -/
def ensureMinimumQualityContent (filtered original : List RItem) : List RItem :=
  if 10 ≤ filtered.length then filtered
  else
    let includedIds := filtered.map fun it => it.id
    let additional := original.filter fun it => !(includedIds.contains it.id)
    let additionalSorted := sortDescBy (fun it => it.score) additional
    let needed := 10 - filtered.length
    let selected := additionalSorted.take needed
    let tagged := selected.map fun it =>
      if it.relevanceScore = none then
        { it with relevanceScore := some (Rat.divInt 11 2),
                  relevanceReason := some "최소 콘텐츠 수 보장을 위해 추가" }
      else it
    filtered ++ tagged

/-- `filter_relevant_content(content_items, query, expanded_keywords)`,
with the per-batch LLM interaction supplied as an oracle indexed by
batch number.  Truncates to the 50 highest-scoring items, scores in
batches of 10, keeps items with `relevance_score ≥ 6.0`, sorts by
relevance descending, then enforces the minimum-quality floor. -/
def filterRelevantContent (contentItems : List RItem) (judges : Nat → BatchOutcome) :
    List RItem :=
  if contentItems = [] then []
  else
    let items :=
      if 50 < contentItems.length then (sortDescBy (fun it => it.score) contentItems).take 50
      else contentItems
    let batches := chunks 10 items
    let allFiltered := batches.enum.foldl
      (fun acc p =>
        match judges p.1 with
        | .exception => acc ++ p.2
        | .judged call =>
          acc ++ (scoreContentRelevance p.2 call).filter
            (fun it => (6 : ℚ) ≤ it.relevanceScore.getD 0))
      []
    let sortedContent := sortDescBy (fun it => it.relevanceScore.getD 0) allFiltered
    ensureMinimumQualityContent sortedContent items

/-! ## Topic clusterer (`topic_clustering_service.py`)

Constants: `MIN_CLUSTER_SIZE = 3`, `MAX_CLUSTERS = 7`,
`MAX_ITEMS_PER_BATCH = 20`. -/

/-- A topic dict validated by `_parse_topics_response`. -/
structure Topic where
  name : String
  description : String
  keywords : List String
deriving DecidableEq, Repr

/-- An element of the decoded topics array: a dict with `name` and
`description` (`keywords` optional), or an element skipped by the
validation (`invalid`). -/
inductive RawTopic where
  | entry (name : String) (description : String) (keywords : Option (List String))
  | invalid
deriving DecidableEq, Repr

/-- A `key_insights` record. -/
structure KeyInsight where
  title : String
  score : Int
  type : String
deriving DecidableEq, Repr

/-- A cluster dict. -/
structure Cluster where
  topic : Topic
  items : List RItem
  averageRelevance : ℚ
  keyInsights : List KeyInsight
deriving DecidableEq, Repr

/-- Result of `cluster_content`; the empty-input branch returns
`statistics = {}`, modelled as `none`. -/
structure ClusterStats where
  totalItems : Nat
  totalClustered : Nat
  totalUnclustered : Int
  numClusters : Nat
  averageClusterSize : ℚ
  largestClusterSize : Nat
  smallestClusterSize : Nat
  clusterDistribution : List (String × Nat × ℚ × ℚ)
deriving DecidableEq, Repr

structure ClusterResult where
  clusters : List Cluster
  unclustered : List RItem
  statistics : Option ClusterStats
deriving DecidableEq, Repr

/-- `_parse_topics_response`: `none` for an unparsable or non-list
response (returns `[]`); otherwise keep dict entries having `name` and
`description`, with `keywords` defaulting to `[]`. -/
def parseTopicsResponse : Option (List RawTopic) → List Topic
  | none => []
  | some l =>
    l.filterMap fun r =>
      match r with
      | .entry n d k => some ⟨n, d, k.getD []⟩
      | .invalid => none

/-- The two fixed fallback topics appended when fewer than 3 topics
were parsed. -/
def fallbackTopics : List Topic :=
  [⟨"일반 논의", "특정 주제로 분류되지 않는 일반적인 논의", ["general", "discussion"]⟩,
   ⟨"기타 의견", "다양한 개인적 의견과 경험", ["opinion", "experience"]⟩]

/-- `_extract_topics(content_items, query)` (success path; a raised LLM
call propagates out of `cluster_content` and is out of scope here).
The sampled items only shape the prompt, so the decoded response is the
oracle `resp`; fewer than 3 parsed topics get the fallbacks appended,
and at most `MAX_CLUSTERS = 7` topics are kept. -/
def extractTopics (resp : Option (List RawTopic)) : List Topic :=
  let topics := parseTopicsResponse resp
  let topics := if topics.length < 3 then topics ++ fallbackTopics else topics
  topics.take 7

/-- An element of the decoded assignments array: `int` covers Python
ints (including `bool`, an `int` subclass); `other` is any non-integer
JSON value, which the validation replaces by 0. -/
inductive JEntry where
  | int (n : Int)
  | other
deriving DecidableEq, Repr

/-- `_parse_assignments_response(response, expected_length)`: `none` is
any unparsable response (fallback `[0] * expected_length`); otherwise
the list is padded with 0 / truncated to the expected length, and each
entry that is not an int `≥ -1` becomes 0.  No upper bound is checked. -/
def parseAssignmentsResponse : Option (List JEntry) → Nat → List Int
  | none, n => List.replicate n 0
  | some l, n =>
    let adjusted :=
      if l.length < n then l ++ List.replicate (n - l.length) (JEntry.int 0)
      else l.take n
    adjusted.map fun v =>
      match v with
      | .int m => if -1 ≤ m then m else 0
      | .other => 0

/-- Append `it` to the items of the `k`-th cluster
(`clusters[topic_idx]['items'].append(...)`). -/
def addToCluster : List Cluster → Nat → RItem → List Cluster
  | [], _, _ => []
  | c :: cs, 0, it => { c with items := c.items ++ [it] } :: cs
  | c :: cs, k + 1, it => c :: addToCluster cs k it

/-- One assignment step: an item with index `0 ≤ i < len(clusters)`
joins that cluster; `-1` or an out-of-range index is skipped. -/
def assignStep (cs : List Cluster) (p : RItem × Int) : List Cluster :=
  if 0 ≤ p.2 ∧ p.2 < (cs.length : Int) then addToCluster cs p.2.toNat p.1 else cs

/-- Per-cluster statistics computed at the end of
`_assign_content_to_topics` for non-empty clusters. -/
def updateClusterStats (c : Cluster) : Cluster :=
  if c.items = [] then c
  else
    { c with
      averageRelevance :=
        ((c.items.map fun it => it.relevanceScore.getD 0).sum) / (c.items.length : ℚ)
      keyInsights :=
        ((sortDescBy (fun it => it.score) c.items).take 3).map fun it =>
          ⟨it.title.getD "제목 없음", it.score, it.type.getD "unknown"⟩ }

/-- `_assign_content_to_topics(content_items, topics)` with the
per-batch LLM responses as an oracle: one empty cluster per topic, then
batches of 20 are classified and distributed, then per-cluster stats. -/
def assignContentToTopics (contentItems : List RItem) (topics : List Topic)
    (oracle : Nat → Option (List JEntry)) : List Cluster :=
  let clusters := topics.map fun t => Cluster.mk t [] 0 []
  let assigned := (chunks 20 contentItems).enum.foldl
    (fun cs p =>
      (p.2.zip (parseAssignmentsResponse (oracle p.1) p.2.length)).foldl assignStep cs)
    clusters
  assigned.map updateClusterStats

/-- The synthetic topic of the merged miscellaneous cluster. -/
def miscTopic : Topic := ⟨"기타 관련 내용", "다양한 관련 주제들", []⟩

/-- `_optimize_clusters(clusters)`: clusters of size ≥ 3 survive;
non-empty smaller ones are pooled into one miscellaneous cluster;
result is sorted by size descending. -/
def optimizeClusters (clusters : List Cluster) : List Cluster :=
  let large := clusters.filter fun c => 3 ≤ c.items.length
  let small := clusters.filter fun c => c.items.length < 3 ∧ c.items ≠ []
  let withMisc :=
    if small = [] then large
    else
      let orphans := (small.map fun c => c.items).flatten
      if orphans = [] then large
      else
        large ++
          [{ topic := miscTopic
             items := orphans
             averageRelevance :=
               ((orphans.map fun it => it.relevanceScore.getD 0).sum) / (orphans.length : ℚ)
             keyInsights :=
               ((sortDescBy (fun it => it.score) orphans).take 3).map fun it =>
                 ⟨it.title.getD "제목 없음", it.score, it.type.getD "unknown"⟩ }]
  sortDescBy (fun c => c.items.length) withMisc

/-- `_generate_cluster_statistics(clusters, all_items)`. -/
def generateClusterStatistics (clusters : List Cluster) (allItems : List RItem) :
    ClusterStats :=
  let totalClustered := (clusters.map fun c => c.items.length).sum
  let totalItems := allItems.length
  let sizes := clusters.map fun c => c.items.length
  { totalItems := totalItems
    totalClustered := totalClustered
    totalUnclustered := (totalItems : Int) - (totalClustered : Int)
    numClusters := clusters.length
    averageClusterSize :=
      if clusters = [] then 0 else (totalClustered : ℚ) / (clusters.length : ℚ)
    largestClusterSize := match sizes with | [] => 0 | s :: rest => rest.foldl max s
    smallestClusterSize := match sizes with | [] => 0 | s :: rest => rest.foldl min s
    clusterDistribution := clusters.map fun c =>
      (c.topic.name, c.items.length,
        if totalItems = 0 then 0 else (c.items.length : ℚ) / (totalItems : ℚ) * 100,
        c.averageRelevance) }

/-- `_is_item_clustered(item, clusters)`: membership by `get('id')`. -/
def isItemClustered (item : RItem) (clusters : List Cluster) : Bool :=
  clusters.any fun c => c.items.any fun ci => ci.id == item.id

/-- `cluster_content(content_items, query)` with the topic-extraction
response and the per-batch assignment responses as oracles. -/
def clusterContent (contentItems : List RItem) (topicsResp : Option (List RawTopic))
    (oracle : Nat → Option (List JEntry)) : ClusterResult :=
  if contentItems = [] then ⟨[], [], none⟩
  else
    let topics := extractTopics topicsResp
    let finalClusters := optimizeClusters (assignContentToTopics contentItems topics oracle)
    { clusters := finalClusters
      unclustered := contentItems.filter fun it => !(isItemClustered it finalClusters)
      statistics := some (generateClusterStatistics finalClusters contentItems) }

/-! ## Deduplicator (`orchestrator_service.py`, `_remove_duplicates`) -/

/-- The loop of `_remove_duplicates`: an item is kept iff its
`get('id')` is truthy (present and non-empty) and not seen before. -/
def removeDupAux (seen : List String) : List RItem → List RItem
  | [] => []
  | it :: rest =>
    match it.id with
    | some s =>
      if s ≠ "" ∧ ¬ seen.contains s then it :: removeDupAux (s :: seen) rest
      else removeDupAux seen rest
    | none => removeDupAux seen rest

/-- `_remove_duplicates(content)`. -/
def removeDuplicates (content : List RItem) : List RItem := removeDupAux [] content

/-- Python truthiness of `item.get('id')`: present and non-empty. -/
def truthyId (o : Option String) : Bool :=
  match o with
  | none => false
  | some s => s ≠ ""

/-! ### Clustering lemmas -/

/-- Specification-side characterization (for comparison with the
clusterer): the input items whose parsed assignment index addresses an
existing topic, batch by batch. -/
def validlyAssignedItems (contentItems : List RItem) (topics : List Topic)
    (oracle : Nat → Option (List JEntry)) : List RItem :=
  ((chunks 20 contentItems).enum.map fun p =>
    ((p.2.zip (parseAssignmentsResponse (oracle p.1) p.2.length)).filter
        (fun q => 0 ≤ q.2 ∧ q.2 < (topics.length : Int))).map fun q => q.1).flatten

/-! ## Substring search (used to state marker-preservation facts) -/

/-- `pat` is a prefix of the character list. -/
def hasPrefixL : List Char → List Char → Bool
  | [], _ => true
  | _ :: _, [] => false
  | p :: ps, c :: cs => p == c && hasPrefixL ps cs

/-- `pat` occurs somewhere in the character list. -/
def hasSubstrL (pat : List Char) : List Char → Bool
  | [] => pat.isEmpty
  | c :: cs => hasPrefixL pat (c :: cs) || hasSubstrL pat cs

/-- `pat` occurs as a contiguous substring of `s`. -/
def containsSub (pat s : String) : Bool := hasSubstrL pat.data s.data

/-! ## Concrete fixtures used by the per-claim theorems -/

/-- A resolvable post item for the C1 failing input. -/
def c1Item : CItem :=
  { id := some "abc123", type := some "post", url := some "https://reddit.com/x",
    title := some "제목A", score := 10, numComments := 2, createdUtc := 0,
    subreddit := some "stocks", author := some "kim" }

/-- A single clusterable item for the C2 counterexample. -/
def c2Item : RItem :=
  { id := some "x1", type := some "post", title := some "제목", score := 5,
    relevanceScore := some 8, relevanceReason := some "이유" }

/-- A raw collected item (no relevance keys yet) for C3. -/
def c3Item : RItem :=
  { id := some "p1", type := some "post", title := some "게시물", score := 3,
    relevanceScore := none, relevanceReason := none }

/-- Twelve items for the C4 counterexample: eleven share the id `b`
(the input was not deduplicated), one has id `a`. -/
def c4DupItems : List RItem :=
  [{ id := some "b", type := some "post", title := some "t1", score := 12,
     relevanceScore := none, relevanceReason := none },
   { id := some "b", type := some "post", title := some "t2", score := 11,
     relevanceScore := none, relevanceReason := none },
   { id := some "b", type := some "post", title := some "t3", score := 10,
     relevanceScore := none, relevanceReason := none },
   { id := some "b", type := some "post", title := some "t4", score := 9,
     relevanceScore := none, relevanceReason := none },
   { id := some "b", type := some "post", title := some "t5", score := 8,
     relevanceScore := none, relevanceReason := none },
   { id := some "b", type := some "post", title := some "t6", score := 7,
     relevanceScore := none, relevanceReason := none },
   { id := some "b", type := some "post", title := some "t7", score := 6,
     relevanceScore := none, relevanceReason := none },
   { id := some "b", type := some "post", title := some "t8", score := 5,
     relevanceScore := none, relevanceReason := none },
   { id := some "b", type := some "post", title := some "t9", score := 4,
     relevanceScore := none, relevanceReason := none },
   { id := some "b", type := some "post", title := some "t10", score := 3,
     relevanceScore := none, relevanceReason := none },
   { id := some "b", type := some "post", title := some "t11", score := 2,
     relevanceScore := none, relevanceReason := none },
   { id := some "a", type := some "post", title := some "t12", score := 1,
     relevanceScore := none, relevanceReason := none }]

/-- Judge oracle for the C4 counterexample: the first batch parses and
scores only content index 1 at 9.0; the second batch is unparsable. -/
def c4DupJudges : Nat → BatchOutcome := fun i =>
  if i = 0 then .judged (.output (some [.entry 1 9 (some "관련")])) else .judged (.output none)

/-- Ten items with pairwise-distinct ids for the C4 witness. -/
def c4WitnessItems : List RItem :=
  [{ id := some "w1", type := some "post", title := some "u1", score := 10,
     relevanceScore := none, relevanceReason := none },
   { id := some "w2", type := some "post", title := some "u2", score := 9,
     relevanceScore := none, relevanceReason := none },
   { id := some "w3", type := some "post", title := some "u3", score := 8,
     relevanceScore := none, relevanceReason := none },
   { id := some "w4", type := some "post", title := some "u4", score := 7,
     relevanceScore := none, relevanceReason := none },
   { id := some "w5", type := some "post", title := some "u5", score := 6,
     relevanceScore := none, relevanceReason := none },
   { id := some "w6", type := some "post", title := some "u6", score := 5,
     relevanceScore := none, relevanceReason := none },
   { id := some "w7", type := some "post", title := some "u7", score := 4,
     relevanceScore := none, relevanceReason := none },
   { id := some "w8", type := some "post", title := some "u8", score := 3,
     relevanceScore := none, relevanceReason := none },
   { id := some "w9", type := some "post", title := some "u9", score := 2,
     relevanceScore := none, relevanceReason := none },
   { id := some "w10", type := some "post", title := some "u10", score := 1,
     relevanceScore := none, relevanceReason := none }]

/-- Twelve distinct-id items for the C5 counterexample. -/
def c5Items : List RItem :=
  [{ id := some "a1", type := some "post", title := some "v1", score := 12,
     relevanceScore := none, relevanceReason := none },
   { id := some "a2", type := some "post", title := some "v2", score := 11,
     relevanceScore := none, relevanceReason := none },
   { id := some "a3", type := some "post", title := some "v3", score := 10,
     relevanceScore := none, relevanceReason := none },
   { id := some "a4", type := some "post", title := some "v4", score := 9,
     relevanceScore := none, relevanceReason := none },
   { id := some "a5", type := some "post", title := some "v5", score := 8,
     relevanceScore := none, relevanceReason := none },
   { id := some "a6", type := some "post", title := some "v6", score := 7,
     relevanceScore := none, relevanceReason := none },
   { id := some "a7", type := some "post", title := some "v7", score := 6,
     relevanceScore := none, relevanceReason := none },
   { id := some "a8", type := some "post", title := some "v8", score := 5,
     relevanceScore := none, relevanceReason := none },
   { id := some "a9", type := some "post", title := some "v9", score := 4,
     relevanceScore := none, relevanceReason := none },
   { id := some "a10", type := some "post", title := some "v10", score := 3,
     relevanceScore := none, relevanceReason := none },
   { id := some "a11", type := some "post", title := some "v11", score := 2,
     relevanceScore := none, relevanceReason := none },
   { id := some "a12", type := some "post", title := some "v12", score := 1,
     relevanceScore := none, relevanceReason := none }]

/-- Judge oracle for the C5 counterexample: batch 0 (items 1–10) parses
with every item scored 9.0; batch 1 (items 11–12) is unparsable. -/
def c5Judges : Nat → BatchOutcome := fun i =>
  if i = 0 then
    .judged (.output (some
      [.entry 1 9 none, .entry 2 9 none, .entry 3 9 none, .entry 4 9 none,
       .entry 5 9 none, .entry 6 9 none, .entry 7 9 none, .entry 8 9 none,
       .entry 9 9 none, .entry 10 9 none]))
  else .judged (.output none)

/-- A resolvable post item whose platform id `abc` collides with a
dangling marker id, for the C7 counterexample. -/
def c7Item : CItem :=
  { id := some "abc", type := some "post", url := some "u",
    title := some "제목", score := 3, numComments := 1, createdUtc := 0,
    subreddit := some "s", author := some "lee" }

/-- An item with an empty-string id for the C9 counterexample. -/
def c9Item : RItem :=
  { id := some "", type := some "post", title := some "빈 아이디", score := 1,
    relevanceScore := none, relevanceReason := none }

/-- Two items sharing the id `a`, for the C9 witness. -/
def c9w1 : RItem :=
  { id := some "a", type := some "post", title := some "첫번째", score := 1,
    relevanceScore := none, relevanceReason := none }

def c9w2 : RItem :=
  { id := some "a", type := some "post", title := some "두번째", score := 2,
    relevanceScore := none, relevanceReason := none }

def c9WItems : List RItem := [c9w1, c9w2]

/-- A resolvable post item for the C10 concrete instance. -/
def c10Item : CItem :=
  { id := some "zzz9", type := some "post", url := some "u10",
    title := some "제목10", score := 4, numComments := 0, createdUtc := 0,
    subreddit := some "r10", author := some "park" }

/-! ## Theorems -/

theorem insertDescBy_perm {α β : Type} [LinearOrder β] (key : α → β) (x : α) (l : List α) :
    List.Perm (insertDescBy key x l) (x :: l) := by
  induction l with
  | nil => simp [insertDescBy]
  | cons y ys ih =>
    by_cases h : key y ≤ key x
    · simp [insertDescBy, h]
    · simp only [insertDescBy, if_neg h]
      exact (List.Perm.cons y ih).trans (List.Perm.swap x y ys)

theorem sortDescBy_perm {α β : Type} [LinearOrder β] (key : α → β) (l : List α) :
    List.Perm (sortDescBy key l) l := by
  induction l with
  | nil => exact List.Perm.refl _
  | cons x xs ih =>
    exact (insertDescBy_perm key x (sortDescBy key xs)).trans (List.Perm.cons x ih)

theorem insertAscBy_perm {α β : Type} [LinearOrder β] (key : α → β) (x : α) (l : List α) :
    List.Perm (insertAscBy key x l) (x :: l) := by
  induction l with
  | nil => simp [insertAscBy]
  | cons y ys ih =>
    by_cases h : key x ≤ key y
    · simp [insertAscBy, h]
    · simp only [insertAscBy, if_neg h]
      exact (List.Perm.cons y ih).trans (List.Perm.swap x y ys)

theorem sortAscBy_perm {α β : Type} [LinearOrder β] (key : α → β) (l : List α) :
    List.Perm (sortAscBy key l) l := by
  induction l with
  | nil => exact List.Perm.refl _
  | cons x xs ih =>
    exact (insertAscBy_perm key x (sortAscBy key xs)).trans (List.Perm.cons x ih)

theorem sortDescBy_length {α β : Type} [LinearOrder β] (key : α → β) (l : List α) :
    (sortDescBy key l).length = l.length :=
  (sortDescBy_perm key l).length_eq

/-- An already ascending-sorted list is fixed by `sortAscBy`. -/
theorem sortAscBy_of_pairwise {α β : Type} [LinearOrder β] (key : α → β) (l : List α)
    (h : l.Pairwise (fun a b => key a ≤ key b)) : sortAscBy key l = l := by
  induction l with
  | nil => rfl
  | cons x xs ih =>
    have hx : ∀ b ∈ xs, key x ≤ key b := (List.pairwise_cons.mp h).1
    have hxs := (List.pairwise_cons.mp h).2
    simp only [sortAscBy, ih hxs]
    cases xs with
    | nil => rfl
    | cons y ys => simp [insertAscBy, hx y (by simp)]

theorem chunksFuel_flatten {α : Type} (k : Nat) :
    ∀ (fuel : Nat) (l : List α), l.length ≤ fuel → (chunksFuel fuel k l).flatten = l := by
  intro fuel
  induction fuel with
  | zero =>
    intro l hl
    have : l = [] := List.length_eq_zero.mp (Nat.le_zero.mp hl)
    subst this
    rfl
  | succ n ih =>
    intro l hl
    cases l with
    | nil => rfl
    | cons x xs =>
      have hdrop : (xs.drop (k - 1)).length ≤ n := by
        have := List.length_drop (k - 1) xs
        simp only [List.length_cons] at hl
        omega
      simp [chunksFuel, ih _ hdrop]

theorem chunks_flatten {α : Type} (k : Nat) (l : List α) : (chunks k l).flatten = l :=
  chunksFuel_flatten k l.length l (Nat.le_refl _)

/-! ### Scanner lemmas -/

theorem splitAtRBracket_eq :
    ∀ {l a b : List Char}, splitAtRBracket l = some (a, b) → l = a ++ ']' :: b := by
  intro l
  induction l with
  | nil => intro a b h; simp [splitAtRBracket] at h
  | cons c cs ih =>
    intro a b h
    by_cases hc : c = ']'
    · simp [splitAtRBracket, hc] at h
      simp [hc, ← h.1, ← h.2]
    · simp only [splitAtRBracket, if_neg hc, Option.map_eq_some'] at h
      obtain ⟨p, hp, hpe⟩ := h
      have := ih (a := p.1) (b := p.2) (by simpa using hp)
      cases hpe
      simp [this]

theorem matchRef_eq {l : List Char} {id : String} {rest : List Char}
    (h : matchRef l = some (id, rest)) :
    l = '[' :: 'r' :: 'e' :: 'f' :: ':' :: id.data ++ ']' :: rest := by
  unfold matchRef at h
  split at h
  · rename_i tail
    split at h
    · rename_i cap rest' hs
      split at h
      · exact absurd h (by simp)
      · rename_i hcap
        have h1 : String.mk cap = id := congrArg Prod.fst (Option.some.inj h)
        have h2 : rest' = rest := congrArg Prod.snd (Option.some.inj h)
        have h3 := splitAtRBracket_eq (l := tail) hs
        subst h2
        rw [← h1, h3]
        simp
    · exact absurd h (by simp)
  · exact absurd h (by simp)

/-- If every id the scanner finds is unmapped, substitution reproduces
the input verbatim (each match is emitted as its original text). -/
theorem substRefsAux_of_unmapped (m : String → Option Nat) :
    ∀ (fuel : Nat) (cs : List Char),
      (∀ id ∈ findRefsAux fuel cs, m id = none) → substRefsAux m fuel cs = cs := by
  intro fuel
  induction fuel with
  | zero => intro cs _; rfl
  | succ n ih =>
    intro cs hm
    cases cs with
    | nil => rfl
    | cons c cs' =>
      cases hmr : matchRef (c :: cs') with
      | none =>
        have : ∀ id ∈ findRefsAux n cs', m id = none := by
          intro id hid
          exact hm id (by simp [findRefsAux, hmr, hid])
        simp [substRefsAux, hmr, ih cs' this]
      | some pr =>
        obtain ⟨id, rest⟩ := pr
        have hid : m id = none := hm id (by simp [findRefsAux, hmr])
        have hrest : ∀ i ∈ findRefsAux n rest, m i = none := by
          intro i hi
          exact hm i (by simp [findRefsAux, hmr, hi])
        have heq := matchRef_eq hmr
        simp only [substRefsAux, hmr, hid, ih rest hrest]
        rw [heq]
        simp

/-- A text in which the scanner finds nothing is reproduced verbatim by
substitution, for any mapping. -/
theorem substRefsAux_of_no_refs (m : String → Option Nat) (fuel : Nat) (cs : List Char)
    (h : findRefsAux fuel cs = []) : substRefsAux m fuel cs = cs := by
  apply substRefsAux_of_unmapped
  simp [h]

theorem string_mk_data (s : String) : String.mk s.data = s := rfl

/-! ### Footnote-numbering lemmas -/

theorem numberFootnotes_num_ge (dict : List (String × CItem)) :
    ∀ (rs : List String) (n : Nat) (f : FootnoteE),
      f ∈ numberFootnotes dict n rs → n ≤ f.footnoteNumber := by
  intro rs
  induction rs with
  | nil => intro n f hf; simp [numberFootnotes] at hf
  | cons r rs ih =>
    intro n f hf
    simp only [numberFootnotes] at hf
    cases h : dictLookup dict r with
    | some it =>
      rw [h] at hf
      rcases List.mem_cons.mp hf with he | ht
      · subst he; simp [mkFootnote]
      · exact Nat.le_of_succ_le (ih (n + 1) f ht)
    | none =>
      rw [h] at hf
      exact Nat.le_of_succ_le (ih (n + 1) f hf)

theorem numberFootnotes_pairwise (dict : List (String × CItem)) :
    ∀ (rs : List String) (n : Nat),
      (numberFootnotes dict n rs).Pairwise
        (fun a b => a.footnoteNumber ≤ b.footnoteNumber) := by
  intro rs
  induction rs with
  | nil => intro n; simp [numberFootnotes]
  | cons r rs ih =>
    intro n
    simp only [numberFootnotes]
    cases h : dictLookup dict r with
    | some it =>
      refine List.pairwise_cons.mpr ⟨?_, ih (n + 1)⟩
      intro f hf
      have := numberFootnotes_num_ge dict rs (n + 1) f hf
      simp only [mkFootnote]
      omega
    | none => exact ih (n + 1)

/-- The numbering loop is already sorted, so the final Python `sort` is
the identity on it. -/
theorem sortAscBy_numberFootnotes (dict : List (String × CItem)) (rs : List String) (n : Nat) :
    sortAscBy (fun f => f.footnoteNumber) (numberFootnotes dict n rs) =
      numberFootnotes dict n rs :=
  sortAscBy_of_pairwise _ _ (numberFootnotes_pairwise dict rs n)

/-- The footnote numbers are exactly the 1-based first-occurrence
positions (offset `n`) of the resolvable ids among ALL distinct ids. -/
theorem numberFootnotes_map_num (dict : List (String × CItem)) :
    ∀ (rs : List String) (n : Nat),
      (numberFootnotes dict n rs).map (fun f => f.footnoteNumber) =
        ((rs.enumFrom n).filter (fun p => (dictLookup dict p.2).isSome)).map (fun p => p.1) := by
  intro rs
  induction rs with
  | nil => intro n; rfl
  | cons r rs ih =>
    intro n
    simp only [numberFootnotes, List.enumFrom]
    cases h : dictLookup dict r with
    | some it => simp [h, List.filter, mkFootnote, ih (n + 1)]
    | none => simp [h, List.filter, ih (n + 1)]

theorem enumFrom_filter_snd_length {α : Type} (p : α → Bool) :
    ∀ (l : List α) (n : Nat),
      ((l.enumFrom n).filter (fun q => p q.2)).length = (l.filter p).length := by
  intro l
  induction l with
  | nil => intro n; rfl
  | cons x xs ih =>
    intro n
    simp only [List.enumFrom, List.filter]
    cases hx : p x <;> simp [hx, ih (n + 1)]

theorem dedupFirstAux_subset (seen : List String) :
    ∀ (l : List String) (r : String), r ∈ dedupFirstAux seen l → r ∈ l := by
  intro l
  induction l generalizing seen with
  | nil => intro r hr; simp [dedupFirstAux] at hr
  | cons x xs ih =>
    intro r hr
    simp only [dedupFirstAux] at hr
    by_cases hx : seen.contains x
    · rw [if_pos hx] at hr
      exact List.mem_cons_of_mem x (ih seen r hr)
    · rw [if_neg hx] at hr
      rcases List.mem_cons.mp hr with he | ht
      · exact he ▸ List.mem_cons_self x xs
      · exact List.mem_cons_of_mem x (ih (x :: seen) r ht)

/-- The footnote numbers produced by extraction: 1-based
first-occurrence positions of the resolvable marker ids among all
distinct marker ids of the report. -/
theorem extractFootnoteMapping_map_num (report : String) (im : List (Nat × CItem)) :
    (extractFootnoteMapping report im).map (fun f => f.footnoteNumber) =
      (((dedupFirst (findRefs report)).enumFrom 1).filter
          (fun p => (dictLookup (postsByRefId im) p.2).isSome)).map (fun p => p.1) := by
  unfold extractFootnoteMapping
  by_cases h : findRefs report = []
  · simp [h, dedupFirst, dedupFirstAux]
  · rw [if_neg h, sortAscBy_numberFootnotes, numberFootnotes_map_num]

/-- Unresolvable ids contribute no footnote entry: the mapping has
exactly one entry per distinct resolvable marker id. -/
theorem extractFootnoteMapping_length (report : String) (im : List (Nat × CItem)) :
    (extractFootnoteMapping report im).length =
      ((dedupFirst (findRefs report)).filter
          (fun r => (dictLookup (postsByRefId im) r).isSome)).length := by
  have h := congrArg List.length (extractFootnoteMapping_map_num report im)
  simp only [List.length_map] at h
  exact h.trans (enumFrom_filter_snd_length
    (fun r => (dictLookup (postsByRefId im) r).isSome) (dedupFirst (findRefs report)) 1)

/-- If no marker id of the report resolves, extraction yields nothing. -/
theorem extractFootnoteMapping_all_unresolved (report : String) (im : List (Nat × CItem))
    (h : ∀ r ∈ findRefs report, dictLookup (postsByRefId im) r = none) :
    extractFootnoteMapping report im = [] := by
  apply List.length_eq_zero.mp
  rw [extractFootnoteMapping_length]
  have : (dedupFirst (findRefs report)).filter
      (fun r => (dictLookup (postsByRefId im) r).isSome) = [] := by
    apply List.filter_eq_nil_iff.mpr
    intro r hr
    have := h r (dedupFirstAux_subset [] (findRefs report) r hr)
    simp [this]
  rw [this]
  rfl

/-- With an empty footnote mapping, conversion rewrites nothing and
appends nothing; if additionally the report has no markers (or no
resolvable ones), the text comes back byte-identical. -/
theorem convertRefsToFootnotes_empty (report : String)
    (h : ∀ id ∈ findRefs report, postIdToFootnote [] id = none) :
    convertRefsToFootnotes report [] = report := by
  unfold convertRefsToFootnotes
  simp only [if_pos rfl]
  rw [substRefsAux_of_unmapped _ _ _ h]
  rfl

/-! ### Filter lemmas -/

/-- On a raised judge call, every item of the batch is kept and carries
the neutral score 5.0 with the failure reason. -/
theorem scoreContentRelevance_failure (batch : List RItem) :
    scoreContentRelevance batch .failure =
      batch.map fun it =>
        { it with relevanceScore := some 5, relevanceReason := some "LLM 평가 실패" } := rfl

/-- On an unparsable judge response, every item of the batch is kept and
carries the neutral score 5.0 with the parse-failure reason. -/
theorem scoreContentRelevance_unparsable (batch : List RItem) :
    scoreContentRelevance batch (.output none) =
      batch.map fun it =>
        { it with relevanceScore := some 5, relevanceReason := some "점수 계산 실패" } := rfl

/-- The floor lemma for the backfill: as long as the pool has at least
10 items with pairwise-distinct ids, the result has at least 10 items,
whatever the filtered list is. -/
theorem ensureMinimumQualityContent_length (filtered original : List RItem)
    (h10 : 10 ≤ original.length)
    (hnd : (original.map fun it => it.id).Nodup) :
    10 ≤ (ensureMinimumQualityContent filtered original).length := by
  unfold ensureMinimumQualityContent
  by_cases hf : 10 ≤ filtered.length
  · rwa [if_pos hf]
  · rw [if_neg hf]
    have hflt : filtered.length < 10 := Nat.lt_of_not_le hf
    have hsplit := List.length_eq_length_filter_add (l := original)
      (fun it => (filtered.map fun it => it.id).contains it.id)
    have hinc : (original.filter
        (fun it => (filtered.map fun it => it.id).contains it.id)).length ≤
        filtered.length := by
      have hnd2 : ((original.filter
          (fun it => (filtered.map fun it => it.id).contains it.id)).map
            fun it => it.id).Nodup :=
        List.Nodup.sublist (List.Sublist.map _ (List.filter_sublist original)) hnd
      have hsub : ((original.filter
          (fun it => (filtered.map fun it => it.id).contains it.id)).map
            fun it => it.id) ⊆ (filtered.map fun it => it.id) := by
        intro a ha
        obtain ⟨it, hit, hae⟩ := List.mem_map.mp ha
        have hc := (List.mem_filter.mp hit).2
        exact hae ▸ List.mem_of_elem_eq_true hc
      have := (List.Nodup.subperm hnd2 hsub).length_le
      simpa using this
    simp only [List.length_append, List.length_map, List.length_take, sortDescBy_length]
    omega

theorem addToCluster_length :
    ∀ (cs : List Cluster) (k : Nat) (it : RItem), (addToCluster cs k it).length = cs.length := by
  intro cs
  induction cs with
  | nil => intro k it; rfl
  | cons c cs ih =>
    intro k it
    cases k with
    | zero => rfl
    | succ k => simp [addToCluster, ih k it]

theorem addToCluster_flatten (it : RItem) :
    ∀ (cs : List Cluster) (k : Nat), k < cs.length →
      List.Perm (((addToCluster cs k it).map fun c => c.items).flatten)
        (it :: ((cs.map fun c => c.items).flatten)) := by
  intro cs
  induction cs with
  | nil => intro k hk; simp at hk
  | cons c cs ih =>
    intro k hk
    cases k with
    | zero =>
      simp only [addToCluster, List.map_cons, List.flatten_cons, List.append_assoc,
        List.singleton_append]
      exact List.perm_middle
    | succ k =>
      have hk' : k < cs.length := by simpa using hk
      simp only [addToCluster, List.map_cons, List.flatten_cons]
      refine ((ih k hk').append_left c.items).trans ?_
      exact List.perm_middle

theorem assignStep_length (cs : List Cluster) (p : RItem × Int) :
    (assignStep cs p).length = cs.length := by
  unfold assignStep
  by_cases h : 0 ≤ p.2 ∧ p.2 < (cs.length : Int)
  · rw [if_pos h]; exact addToCluster_length cs p.2.toNat p.1
  · rw [if_neg h]

theorem foldl_assignStep_length :
    ∀ (pairs : List (RItem × Int)) (cs : List Cluster),
      (pairs.foldl assignStep cs).length = cs.length := by
  intro pairs
  induction pairs with
  | nil => intro cs; rfl
  | cons p ps ih =>
    intro cs
    simp only [List.foldl_cons]
    rw [ih (assignStep cs p), assignStep_length]

theorem foldl_assignStep_flatten :
    ∀ (pairs : List (RItem × Int)) (cs : List Cluster),
      List.Perm (((pairs.foldl assignStep cs).map fun c => c.items).flatten)
        (((pairs.filter fun q => 0 ≤ q.2 ∧ q.2 < (cs.length : Int)).map fun q => q.1) ++
          ((cs.map fun c => c.items).flatten)) := by
  intro pairs
  induction pairs with
  | nil => intro cs; simp
  | cons p ps ih =>
    intro cs
    simp only [List.foldl_cons, List.filter_cons, decide_eq_true_eq]
    by_cases h : 0 ≤ p.2 ∧ p.2 < (cs.length : Int)
    · have hlt : p.2.toNat < cs.length := by omega
      have hstep : assignStep cs p = addToCluster cs p.2.toNat p.1 := by
        unfold assignStep; rw [if_pos h]
      rw [hstep, if_pos h]
      have ih' := ih (addToCluster cs p.2.toNat p.1)
      rw [addToCluster_length] at ih'
      refine ih'.trans ?_
      refine (List.Perm.append_left _ (addToCluster_flatten p.1 cs p.2.toNat hlt)).trans ?_
      simp only [List.map_cons]
      exact List.perm_middle
    · have hstep : assignStep cs p = cs := by unfold assignStep; rw [if_neg h]
      rw [hstep, if_neg h]
      exact ih cs

theorem flatten_map_items_nilClusters (topics : List Topic) :
    (((topics.map fun t => Cluster.mk t [] 0 []).map fun c => c.items).flatten) = [] := by
  induction topics with
  | nil => rfl
  | cons t ts ih => simp [ih]

theorem assignContentToTopics_flatten (contentItems : List RItem) (topics : List Topic)
    (oracle : Nat → Option (List JEntry)) :
    List.Perm (((assignContentToTopics contentItems topics oracle).map fun c => c.items).flatten)
      (validlyAssignedItems contentItems topics oracle) := by
  unfold assignContentToTopics validlyAssignedItems
  have hitems : ∀ (l : List Cluster),
      ((l.map updateClusterStats).map fun c => c.items) = l.map fun c => c.items := by
    intro l
    rw [List.map_map]
    apply List.map_congr_left
    intro c _
    unfold updateClusterStats
    by_cases h : c.items = [] <;> simp [h]
  rw [hitems]
  have main : ∀ (bl : List (Nat × List RItem)) (cs : List Cluster),
      List.Perm
        (((bl.foldl (fun cs p =>
            (p.2.zip (parseAssignmentsResponse (oracle p.1) p.2.length)).foldl assignStep cs)
              cs).map fun c => c.items).flatten)
        ((bl.map fun p =>
            ((p.2.zip (parseAssignmentsResponse (oracle p.1) p.2.length)).filter
                (fun q => 0 ≤ q.2 ∧ q.2 < (cs.length : Int))).map fun q => q.1).flatten ++
          ((cs.map fun c => c.items).flatten)) := by
    intro bl
    induction bl with
    | nil => intro cs; simp
    | cons b bs ih =>
      intro cs
      simp only [List.foldl_cons, List.map_cons, List.flatten_cons]
      have hcs' := foldl_assignStep_length
        (b.2.zip (parseAssignmentsResponse (oracle b.1) b.2.length)) cs
      have hperm := ih ((b.2.zip (parseAssignmentsResponse (oracle b.1) b.2.length)).foldl
        assignStep cs)
      rw [hcs'] at hperm
      refine hperm.trans ?_
      refine (List.Perm.append_left _ (foldl_assignStep_flatten _ cs)).trans ?_
      rw [← List.append_assoc]
      refine List.Perm.append_right _ ?_
      exact List.perm_append_comm
  have := main (chunks 20 contentItems).enum (topics.map fun t => Cluster.mk t [] 0 [])
  rw [flatten_map_items_nilClusters, List.append_nil] at this
  simpa using this

theorem cluster_partition_flatten :
    ∀ (cs : List Cluster),
      List.Perm ((cs.map fun c => c.items).flatten)
        ((((cs.filter fun c => 3 ≤ c.items.length).map fun c => c.items).flatten) ++
          (((cs.filter fun c => c.items.length < 3 ∧ c.items ≠ []).map
              fun c => c.items).flatten)) := by
  intro cs
  induction cs with
  | nil => simp
  | cons c cs ih =>
    by_cases h3 : 3 ≤ c.items.length
    · have hns : ¬ (c.items.length < 3 ∧ c.items ≠ []) := by omega
      simp only [List.filter_cons, decide_eq_true_eq, h3, if_pos, List.map_cons,
        List.flatten_cons]
      rw [if_neg (by simpa using hns), List.append_assoc]
      exact ih.append_left c.items
    · by_cases he : c.items = []
      · have hns : ¬ (c.items.length < 3 ∧ c.items ≠ []) := by simp [he]
        simp only [List.filter_cons, decide_eq_true_eq]
        rw [if_neg (by simpa using h3), if_neg (by simpa using hns)]
        simpa [he] using ih
      · have hs : c.items.length < 3 ∧ c.items ≠ [] := ⟨by omega, he⟩
        simp only [List.filter_cons, decide_eq_true_eq]
        rw [if_neg (by simpa using h3), if_pos (by simpa using hs)]
        simp only [List.map_cons, List.flatten_cons]
        refine (ih.append_left c.items).trans ?_
        rw [← List.append_assoc, ← List.append_assoc]
        refine List.Perm.append_right _ ?_
        exact List.perm_append_comm

theorem optimizeClusters_flatten (cs : List Cluster) :
    List.Perm (((optimizeClusters cs).map fun c => c.items).flatten)
      ((cs.map fun c => c.items).flatten) := by
  have hsort : ∀ (l : List Cluster),
      List.Perm (((sortDescBy (fun c => c.items.length) l).map fun c => c.items).flatten)
        ((l.map fun c => c.items).flatten) :=
    fun l => ((sortDescBy_perm (fun c => c.items.length) l).map (fun c => c.items)).flatten
  unfold optimizeClusters
  dsimp only
  refine (hsort _).trans ?_
  by_cases hsmall : cs.filter (fun c => decide (c.items.length < 3 ∧ c.items ≠ [])) = []
  · rw [if_pos hsmall]
    refine List.Perm.trans ?_ (cluster_partition_flatten cs).symm
    rw [hsmall]
    simp
  · rw [if_neg hsmall]
    by_cases horph : (((cs.filter fun c => decide (c.items.length < 3 ∧ c.items ≠ [])).map
        fun c => c.items).flatten) = []
    · rw [if_pos horph]
      refine List.Perm.trans ?_ (cluster_partition_flatten cs).symm
      rw [horph]
      simp
    · rw [if_neg horph]
      refine List.Perm.trans ?_ (cluster_partition_flatten cs).symm
      simp

/-! ### Dedup lemmas -/

theorem removeDupAux_sublist :
    ∀ (L : List RItem) (seen : List String), (removeDupAux seen L).Sublist L := by
  intro L
  induction L with
  | nil => intro seen; exact List.Sublist.refl _
  | cons it rest ih =>
    intro seen
    cases hid : it.id with
    | none => simp only [removeDupAux, hid]; exact (ih seen).cons it
    | some s =>
      simp only [removeDupAux, hid]
      by_cases hc : s ≠ "" ∧ ¬ seen.contains s
      · rw [if_pos hc]; exact (ih (s :: seen)).cons₂ it
      · rw [if_neg hc]; exact (ih seen).cons it

theorem removeDupAux_truthy :
    ∀ (L : List RItem) (seen : List String) (it : RItem),
      it ∈ removeDupAux seen L → truthyId it.id = true := by
  intro L
  induction L with
  | nil => intro seen it h; simp [removeDupAux] at h
  | cons x rest ih =>
    intro seen it h
    cases hid : x.id with
    | none =>
      simp only [removeDupAux, hid] at h
      exact ih seen it h
    | some s =>
      simp only [removeDupAux, hid] at h
      by_cases hc : s ≠ "" ∧ ¬ seen.contains s
      · rw [if_pos hc] at h
        rcases List.mem_cons.mp h with he | ht
        · subst he; simp [truthyId, hid, hc.1]
        · exact ih (s :: seen) it ht
      · rw [if_neg hc] at h
        exact ih seen it h

theorem removeDupAux_nodup :
    ∀ (L : List RItem) (seen : List String),
      (((removeDupAux seen L).map fun it => it.id).Nodup) ∧
        (∀ it ∈ removeDupAux seen L, ∀ s, it.id = some s → s ∉ seen) := by
  intro L
  induction L with
  | nil => intro seen; constructor <;> simp [removeDupAux]
  | cons x rest ih =>
    intro seen
    cases hid : x.id with
    | none => simp only [removeDupAux, hid]; exact ih seen
    | some s =>
      simp only [removeDupAux, hid]
      by_cases hc : s ≠ "" ∧ ¬ seen.contains s
      · rw [if_pos hc]
        obtain ⟨ihn, ihs⟩ := ih (s :: seen)
        constructor
        · simp only [List.map_cons, List.nodup_cons]
          refine ⟨?_, ihn⟩
          intro hmem
          obtain ⟨y, hy, hye⟩ := List.mem_map.mp hmem
          have := ihs y hy s (by rw [hye, hid])
          simp at this
        · intro it hit t hts
          rcases List.mem_cons.mp hit with he | ht
          · subst he
            rw [hid] at hts
            have hv : t = s := by
              injection hts with hv
              exact hv.symm
            subst hv
            intro habs
            exact hc.2 (List.elem_eq_true_of_mem habs)
          · have := ihs it ht t hts
            intro habs
            exact this (List.mem_cons_of_mem s habs)
      · rw [if_neg hc]
        exact ih seen

/-- First-occurrence representation: an item with a truthy id not yet
seen is represented in the output by the first input item carrying that
id. -/
theorem removeDupAux_find :
    ∀ (L : List RItem) (seen : List String) (it : RItem),
      it ∈ L → ∀ s, it.id = some s → s ≠ "" → s ∉ seen →
        ∃ r, L.find? (fun x => x.id == it.id) = some r ∧ r ∈ removeDupAux seen L := by
  intro L
  induction L with
  | nil => intro seen it h; simp at h
  | cons x rest ih =>
    intro seen it hit s hs hse hseen
    by_cases hxid : x.id = it.id
    · refine ⟨x, ?_, ?_⟩
      · rw [List.find?_cons_of_pos _ (by simp [hxid])]
      · simp only [removeDupAux, hxid, hs]
        rw [if_pos ⟨hse, fun hc => hseen (List.mem_of_elem_eq_true hc)⟩]
        exact List.mem_cons_self x _
    · have hxt : it ∈ rest := by
        rcases List.mem_cons.mp hit with he | ht
        · exact absurd (show x.id = it.id by rw [he]) hxid
        · exact ht
      have hfind : (x :: rest).find? (fun y => y.id == it.id) =
          rest.find? (fun y => y.id == it.id) :=
        List.find?_cons_of_neg _ (by simp [hxid])
      rw [hfind]
      cases hxi : x.id with
      | none =>
        simp only [removeDupAux, hxi]
        exact ih seen it hxt s hs hse hseen
      | some t =>
        simp only [removeDupAux, hxi]
        by_cases hc : t ≠ "" ∧ ¬ seen.contains t
        · rw [if_pos hc]
          have hts : t ≠ s := by
            intro he
            exact hxid (by rw [hxi, hs, he])
          obtain ⟨r, hr, hrm⟩ := ih (t :: seen) it hxt s hs hse
            (by
              intro habs
              rcases List.mem_cons.mp habs with he | hm
              · exact hts he.symm
              · exact hseen hm)
          exact ⟨r, hr, List.mem_cons_of_mem x hrm⟩
        · rw [if_neg hc]
          exact ih seen it hxt s hs hse hseen

/-- A list of truthy, pairwise-distinct, unseen ids is a fixed point of
the dedup loop. -/
theorem removeDupAux_fixed :
    ∀ (L : List RItem) (seen : List String),
      (∀ it ∈ L, truthyId it.id = true) →
      ((L.map fun it => it.id).Nodup) →
      (∀ it ∈ L, ∀ s, it.id = some s → s ∉ seen) →
      removeDupAux seen L = L := by
  intro L
  induction L with
  | nil => intro seen _ _ _; rfl
  | cons x rest ih =>
    intro seen htr hnd hseen
    have hx := htr x (List.mem_cons_self x rest)
    cases hxi : x.id with
    | none => rw [hxi] at hx; simp [truthyId] at hx
    | some s =>
      rw [hxi] at hx
      have hse : s ≠ "" := by simpa [truthyId] using hx
      have hsn : s ∉ seen := hseen x (List.mem_cons_self x rest) s hxi
      simp only [removeDupAux, hxi]
      rw [if_pos ⟨hse, fun hc => hsn (List.mem_of_elem_eq_true hc)⟩]
      have hnd' : (x.id :: rest.map fun it => it.id).Nodup := by
        rw [← List.map_cons]; exact hnd
      have hhead : x.id ∉ rest.map fun it => it.id := (List.nodup_cons.mp hnd').1
      have htail : (rest.map fun it => it.id).Nodup := (List.nodup_cons.mp hnd').2
      congr 1
      apply ih (s :: seen)
      · intro it hit; exact htr it (List.mem_cons_of_mem x hit)
      · exact htail
      · intro it hit t hts habs
        rcases List.mem_cons.mp habs with he | hm
        · subst he
          exact hhead (List.mem_map.mpr ⟨it, hit, by rw [hts, hxi]⟩)
        · exact hseen it (List.mem_cons_of_mem x hit) t hts hm

/-- Dedup is idempotent. -/
theorem removeDuplicates_idem (L : List RItem) :
    removeDuplicates (removeDuplicates L) = removeDuplicates L := by
  unfold removeDuplicates
  apply removeDupAux_fixed
  · intro it hit; exact removeDupAux_truthy L [] it hit
  · exact (removeDupAux_nodup L []).1
  · intro it _ s _; simp

/-! ## Per-claim theorems -/

/-- C1: the claim says every marker whose id resolves in the source set
is rewritten in place to its footnote number.  The code violates this:
`_convert_refs_to_footnotes` keys its rewrite dict by the footnote's
`post_id` field — the item's platform id — while markers carry the
`POST_i` keys, so at the failing input the marker `[ref:POST_1]`
resolves (the footnote list has its entry, numbered 1, with platform id
`abc123`) yet the output text still contains the raw marker verbatim,
with the references section appended after the unrewritten text. -/
theorem c1_code_evaluation :
    (mapCitations "요약 [ref:POST_1] 끝" [(1, c1Item)]).2 = [mkFootnote 1 c1Item] ∧
    dictLookup (postsByRefId [(1, c1Item)]) "POST_1" = some c1Item ∧
    containsSub "[ref:POST_1]" (mapCitations "요약 [ref:POST_1] 끝" [(1, c1Item)]).1 = true ∧
    (mapCitations "요약 [ref:POST_1] 끝" [(1, c1Item)]).1 =
      "요약 [ref:POST_1] 끝\n\n## 참조 목록\n\n[1] 제목A - r/stocks (점수: 10, 댓글: 2)\n" := by
  refine ⟨by decide, by decide, by decide, by decide⟩

/-- C2 counterexample: an item whose assignment response is `-1` lands
in no cluster at all — the optimized cluster list is empty and the item
is reported as unclustered — refuting "every input item appears in
exactly one cluster's items list". -/
theorem c2_counterexample :
    (clusterContent [c2Item] none (fun _ => some [JEntry.int (-1)])).clusters = [] ∧
    (clusterContent [c2Item] none (fun _ => some [JEntry.int (-1)])).unclustered = [c2Item] := by
  refine ⟨by decide, by decide⟩

/-- C2 (amended): the concatenation of the optimized clusters' item
lists is a permutation of exactly the input items whose parsed
assignment index addresses an existing topic (`0 ≤ idx < #topics`) —
each such occurrence appears in exactly one cluster (its natural
cluster or the merged miscellaneous one); an occurrence assigned `-1`
or an out-of-range index contributes to no cluster. -/
theorem c2_completeness_amended (contentItems : List RItem)
    (topicsResp : Option (List RawTopic)) (oracle : Nat → Option (List JEntry)) :
    List.Perm
      (((clusterContent contentItems topicsResp oracle).clusters.map fun c => c.items).flatten)
      (validlyAssignedItems contentItems (extractTopics topicsResp) oracle) := by
  unfold clusterContent
  by_cases he : contentItems = []
  · rw [if_pos he]
    subst he
    unfold validlyAssignedItems chunks chunksFuel
    simp
  · rw [if_neg he]
    dsimp only
    exact (optimizeClusters_flatten _).trans
      (assignContentToTopics_flatten contentItems (extractTopics topicsResp) oracle)

/-- C3: the claim says every backfilled item gets a synthetic relevance
score strictly above the threshold 6.0.  The code violates this — and
its own comment `임계값보다 약간 높은 기본 점수` ("default score
slightly above the threshold") — by assigning 5.5: at the failing input
the single raw item comes back backfilled with score 5.5 and the audit
reason, and 5.5 < 6.0. -/
theorem c3_code_evaluation :
    filterRelevantContent [c3Item] (fun _ => .judged (.output none)) =
      [{ c3Item with relevanceScore := some (Rat.divInt 11 2),
                     relevanceReason := some "최소 콘텐츠 수 보장을 위해 추가" }] ∧
    Rat.divInt 11 2 < 6 := by
  refine ⟨by decide, by decide⟩

/-- C4 counterexample: with duplicated ids in the input (the claim
quantifies over every input list) the backfill under-counts — twelve
items, eleven sharing one id, yield only two output items, refuting
"the filter returns at least 10 items". -/
theorem c4_counterexample :
    (filterRelevantContent c4DupItems c4DupJudges).length = 2 ∧
    10 ≤ c4DupItems.length := by
  refine ⟨by decide, by decide⟩

/-- C4 (amended): for every input list of at least 10 items whose ids
are pairwise distinct, the filter returns at least 10 items, whatever
the judge does — even when no item reaches the threshold — via the
backfill of the highest-raw-score rejects. -/
theorem c4_floor_amended (contentItems : List RItem) (judges : Nat → BatchOutcome)
    (h10 : 10 ≤ contentItems.length)
    (hnd : (contentItems.map fun it => it.id).Nodup) :
    10 ≤ (filterRelevantContent contentItems judges).length := by
  have hne : contentItems ≠ [] := by
    intro he
    rw [he] at h10
    simp at h10
  unfold filterRelevantContent
  rw [if_neg hne]
  dsimp only
  by_cases h50 : 50 < contentItems.length
  · rw [if_pos h50]
    apply ensureMinimumQualityContent_length
    · rw [List.length_take, sortDescBy_length]
      omega
    · refine List.Nodup.sublist (List.Sublist.map _ (List.take_sublist _ _)) ?_
      have hperm := (sortDescBy_perm (fun it => it.score) contentItems).map fun it => it.id
      exact hperm.nodup_iff.mpr hnd
  · rw [if_neg h50]
    exact ensureMinimumQualityContent_length _ _ h10 hnd

/-- C4 witness: ten distinct-id items, every batch unparsable (so no
item reaches the threshold), still yield ten items. -/
theorem c4_witness :
    10 ≤ (filterRelevantContent c4WitnessItems (fun _ => .judged (.output none))).length :=
  c4_floor_amended c4WitnessItems (fun _ => .judged (.output none)) (by decide) (by decide)

/-- C5 counterexample: batch 1 (items `a11`, `a12`) gets an unparsable
judge response, and since ten other items pass the threshold there is
no backfill — the two items of the failed batch are dropped from the
filter's output entirely, refuting "rather than being dropped from the
filter's output". -/
theorem c5_counterexample :
    ((filterRelevantContent c5Items c5Judges).all fun it =>
      (it.id != some "a11") && (it.id != some "a12")) = true ∧
    (filterRelevantContent c5Items c5Judges).length = 10 ∧
    ((c5Items.map fun it => it.id).contains (some "a11")) = true := by
  refine ⟨by decide, by decide, by decide⟩

/-- C5 (amended): a failed judge call, or unparsable judge output,
assigns every item of the batch the neutral default score 5.0 together
with a failure reason string at the scoring stage — the batch is kept
there, not dropped; since 5.0 is below the threshold 6.0, such items
are then excluded from the filter's final output unless backfilled. -/
theorem c5_neutral_amended (batch : List RItem) :
    scoreContentRelevance batch .failure =
      (batch.map fun it =>
        { it with relevanceScore := some 5, relevanceReason := some "LLM 평가 실패" }) ∧
    scoreContentRelevance batch (.output none) =
      (batch.map fun it =>
        { it with relevanceScore := some 5, relevanceReason := some "점수 계산 실패" }) ∧
    ¬ ((6 : ℚ) ≤ 5) :=
  ⟨scoreContentRelevance_failure batch, scoreContentRelevance_unparsable batch, by norm_num⟩

/-- C6 counterexample: the parser keeps the out-of-range entry 99
unchanged (its validation only checks `val ≥ -1`), so with the concrete
fallback topic list (2 topics) the parsed assignment is neither a valid
topic index nor −1, refuting "any non-integer or out-of-range entry
defaults to 0". -/
theorem c6_counterexample :
    parseAssignmentsResponse (some [JEntry.int 99]) 1 = [99] ∧
    extractTopics none = fallbackTopics ∧
    ¬ ((99 : Int) = -1 ∨ (0 ≤ (99 : Int) ∧ (99 : Int) < (fallbackTopics.length : Int))) := by
  refine ⟨by decide, by decide, by decide⟩

/-- C6 (amended): the parsed assignment list always has exactly `n`
integer entries, each `≥ -1`: an unparsable response falls back to
`n` zeros, shorter responses are padded with 0, longer ones truncated,
and non-integer or below-range (`< -1`) entries default to 0; the
parser checks no upper bound, out-of-range indices being skipped later
by the assignment loop. -/
theorem c6_parse_amended (l : List JEntry) (n : Nat) :
    parseAssignmentsResponse none n = List.replicate n 0 ∧
    (parseAssignmentsResponse (some l) n).length = n ∧
    (∀ v ∈ parseAssignmentsResponse (some l) n, -1 ≤ v) ∧
    parseAssignmentsResponse (some l) n =
      ((l.take n).map fun v =>
        match v with
        | .int m => if -1 ≤ m then m else 0
        | .other => 0) ++ List.replicate (n - l.length) 0 := by
  have hmain : parseAssignmentsResponse (some l) n =
      ((l.take n).map fun v =>
        match v with
        | .int m => if -1 ≤ m then m else 0
        | .other => 0) ++ List.replicate (n - l.length) 0 := by
    unfold parseAssignmentsResponse
    dsimp only
    by_cases hl : l.length < n
    · rw [if_pos hl, List.map_append, List.map_replicate,
        List.take_of_length_le (Nat.le_of_lt hl)]
      rfl
    · rw [if_neg hl]
      have h0 : n - l.length = 0 := by omega
      rw [h0]
      simp
  refine ⟨rfl, ?_, ?_, hmain⟩
  · rw [hmain]
    simp only [List.length_append, List.length_map, List.length_take, List.length_replicate]
    omega
  · intro v hv
    rw [hmain] at hv
    rcases List.mem_append.mp hv with hm | hr
    · obtain ⟨e, _, he⟩ := List.mem_map.mp hm
      subst he
      cases e with
      | int m =>
        by_cases hm1 : (-1 : Int) ≤ m
        · simp [hm1]
        · simp [hm1]
      | other => simp
    · rw [List.eq_of_mem_replicate hr]
      decide

/-- C6 witness: the amended parse properties at a concrete response. -/
theorem c6_witness :
    (-1 : Int) ≤ 99 ∧
    (parseAssignmentsResponse (some [JEntry.int 99, JEntry.other]) 5).length = 5 :=
  ⟨(c6_parse_amended [JEntry.int 99, JEntry.other] 5).2.2.1 99 (by decide),
   (c6_parse_amended [JEntry.int 99, JEntry.other] 5).2.1⟩

/-- C7 counterexample: the marker id `abc` resolves to no item
(`posts_by_ref_id` has only `POST_1`), yet it does NOT remain in the
output text — the rewrite dict is keyed by platform id, and the
resolved item's platform id happens to be `abc`, so the dangling marker
is wrongly rewritten to that item's footnote number. -/
theorem c7_counterexample :
    dictLookup (postsByRefId [(1, c7Item)]) "abc" = none ∧
    "abc" ∈ findRefs "[ref:POST_1] [ref:abc]" ∧
    containsSub "[ref:abc]" (mapCitations "[ref:POST_1] [ref:abc]" [(1, c7Item)]).1 = false := by
  refine ⟨by decide, by decide, by decide⟩

/-- C7 (amended): an unresolvable marker id never produces a footnote
entry — the footnote list has exactly one entry per distinct resolvable
marker id — and when no marker id resolves, the mapper returns the text
byte-identical with an empty footnote list; a dangling marker is left
unrewritten except when its id collides with the stored platform id of
a resolved item, in which case it is wrongly rewritten (as the
counterexample shows). -/
theorem c7_dangling_amended (report : String) (im : List (Nat × CItem)) :
    (extractFootnoteMapping report im).length =
      ((dedupFirst (findRefs report)).filter
        (fun r => (dictLookup (postsByRefId im) r).isSome)).length ∧
    ((∀ r ∈ findRefs report, dictLookup (postsByRefId im) r = none) →
      mapCitations report im = (report, [])) := by
  refine ⟨extractFootnoteMapping_length report im, ?_⟩
  intro h
  have hext := extractFootnoteMapping_all_unresolved report im h
  unfold mapCitations
  dsimp only
  rw [hext, convertRefsToFootnotes_empty report (fun id _ => rfl)]

/-- C7 witness: a report whose only marker is unresolvable comes back
unchanged with an empty footnote list. -/
theorem c7_witness :
    mapCitations "본문 [ref:zzz] 끝" [] = ("본문 [ref:zzz] 끝", []) :=
  (c7_dangling_amended "본문 [ref:zzz] 끝" []).2 (by decide)

/-- C8: a text in which the marker pattern matches nowhere — in
particular already-mapped text whose citations are numeric — is
returned byte-identical, with no references section appended and an
empty footnote list; applying the mapper to its own output therefore
leaves it unchanged. -/
theorem c8_no_markers_identity (report : String) (im : List (Nat × CItem))
    (h : findRefs report = []) :
    mapCitations report im = (report, []) ∧
    mapCitations (mapCitations report im).1 im = mapCitations report im := by
  have hext : extractFootnoteMapping report im = [] := by
    unfold extractFootnoteMapping
    rw [if_pos h]
  have hconv : convertRefsToFootnotes report [] = report :=
    convertRefsToFootnotes_empty report (fun id hid => by rw [h] at hid; simp at hid)
  have h1 : mapCitations report im = (report, []) := by
    unfold mapCitations
    dsimp only
    rw [hext, hconv]
  refine ⟨h1, ?_⟩
  rw [h1]
  exact h1

/-- C8 witness: an already-numeric text is a fixed point with empty
footnotes. -/
theorem c8_witness :
    mapCitations "결론 [1] 그리고 [2]" [] = ("결론 [1] 그리고 [2]", []) :=
  (c8_no_markers_identity "결론 [1] 그리고 [2]" [] (by decide)).1

/-- C9 counterexample: an item whose id is the empty string is the
first (and only) occurrence of its id, yet dedupe drops it — the
truthiness guard `if item_id and ...` discards falsy ids — refuting
"dedupe keeps the first occurrence of each id". -/
theorem c9_counterexample :
    removeDuplicates [c9Item] = [] ∧
    c9Item ∈ [c9Item] ∧ c9Item ∉ removeDuplicates [c9Item] := by
  refine ⟨by decide, by decide, by decide⟩

/-- C9 (amended): dedupe keeps, unchanged and in order (a sublist, no
merging of fields), exactly the first occurrence of each truthy
(present, non-empty) id, dropping items with missing or empty ids; the
result carries pairwise-distinct ids; and dedupe is idempotent. -/
theorem c9_dedupe_amended (L : List RItem) :
    (removeDuplicates L).Sublist L ∧
    (∀ it ∈ removeDuplicates L, truthyId it.id = true) ∧
    ((removeDuplicates L).map fun it => it.id).Nodup ∧
    (∀ it ∈ L, ∀ s, it.id = some s → s ≠ "" →
      ∃ r, L.find? (fun x => x.id == it.id) = some r ∧ r ∈ removeDuplicates L) ∧
    removeDuplicates (removeDuplicates L) = removeDuplicates L := by
  refine ⟨removeDupAux_sublist L [], ?_, (removeDupAux_nodup L []).1, ?_,
    removeDuplicates_idem L⟩
  · intro it hit
    exact removeDupAux_truthy L [] it hit
  · intro it hit s hs hse
    exact removeDupAux_find L [] it hit s hs hse (by simp)

/-- C9 witness: with two items sharing the id `a`, the first occurrence
represents the id in the dedup output. -/
theorem c9_witness :
    ∃ r, List.find? (fun x => x.id == c9w1.id) c9WItems = some r ∧
      r ∈ removeDuplicates c9WItems :=
  (c9_dedupe_amended c9WItems).2.2.2.1 c9w1 (by decide) "a" (by decide) (by decide)

/-- C10: footnote numbers are allocated by first occurrence over ALL
distinct marker ids, including unresolvable ones: in general the
returned numbers are the 1-based first-occurrence positions of the
resolvable ids among all distinct ids, and on a concrete text whose
first marker is unresolvable the returned footnote list carries the
single number 2 — neither contiguous nor starting at 1. -/
theorem c10_numbering (report : String) (im : List (Nat × CItem)) :
    ((extractFootnoteMapping report im).map fun f => f.footnoteNumber) =
      ((((dedupFirst (findRefs report)).enumFrom 1).filter
        (fun p => (dictLookup (postsByRefId im) p.2).isSome)).map fun p => p.1) ∧
    ((extractFootnoteMapping "서두 [ref:XYZ] 중간 [ref:POST_1] 끝" [(1, c10Item)]).map
      fun f => f.footnoteNumber) = [2] :=
  ⟨extractFootnoteMapping_map_num report im, by decide⟩

end Pipeline

